import Mathlib

/-!
Shallow embedding of the MusicTransformer repository's training
orchestration loop (src/train.py, function `main`) and of the maestro
preprocessing loop (src/preprocess_midi.py, function `prep_maestro_midi`).

The external collaborators (`eval_model`, `train_epoch`, `get_lr`,
`torch.save`, the datasets) live outside the repository's src/ tree; the
loop is therefore parameterized by an oracle giving the averaged metrics
and the learning-rate value observed at each epoch, and every externally
visible side effect is recorded as an explicit event in program order.
-/

/-- src/train.py line 25: `BASELINE_EPOCH = -1`, the sentinel loop index of
the evaluation-only baseline epoch. -/
def BASELINE_EPOCH : Int := -1

/-- The values returned by the external collaborators during one iteration
of the training loop: `eval_model(model, train_loader, ...)` (train.py line
165), `eval_model(model, test_loader, ...)` (line 170) and `get_lr(opt)`
(line 175). These functions are outside src/, so a run is parameterized by
an oracle `Int → EpochObs` indexed by the loop variable `epoch`. -/
structure EpochObs where
  train_loss : ℚ
  train_acc : ℚ
  eval_loss : ℚ
  eval_acc : ℚ
  lr : ℚ
deriving DecidableEq

/-- The command-line arguments of src/train.py that the orchestration loop
reads. `continue_weights` is an opaque identifier of the weight file. -/
structure TrainArgs where
  continue_weights : Option Nat
  continue_epoch : Option Int
  lr : Option ℚ
  epochs : Int
  weight_modulus : Int
  no_tensorboard : Bool
deriving DecidableEq

/-- The best-record state of train.py lines 131-135. `best_eval_loss` is
initialized to `float("inf")`, modelled as `⊤ : WithTop ℚ`. -/
structure BestState where
  best_eval_acc : ℚ
  best_eval_acc_epoch : Int
  best_eval_loss : WithTop ℚ
  best_eval_loss_epoch : Int
deriving DecidableEq

/-- train.py lines 131-135: `best_eval_acc = 0.0`, `best_eval_acc_epoch = -1`,
`best_eval_loss = float("inf")`, `best_eval_loss_epoch = -1`. -/
def initBest : BestState := ⟨0, -1, ⊤, -1⟩

/-- Externally visible side effects of src/train.py `main`, recorded in
program order. The CSV row content rides on `appendRow`; the content of the
best-summary text file rides on `writeBestText`. -/
inductive Ev where
  | mkdirOutput
  | writeParams
  | mkdirWeights
  | mkdirResults
  | tbInit
  | writeHeader
  | trainPass (epoch1 : Int)
  | evalPass (onTrainSet : Bool)
  | saveBestAcc (epoch1 : Int)
  | saveBestLoss (epoch1 : Int)
  | writeBestText (accEpoch : Int) (acc : ℚ) (lossEpoch : Int) (loss : WithTop ℚ)
  | saveNumbered (epoch1 : Int)
  | appendRow (epoch1 : Int) (lr tl ta el ea : ℚ)
deriving DecidableEq

/-- Result of the best-record update block (train.py lines 185-206). -/
structure CkOut where
  st : BestState
  improved_acc : Bool
  improved_loss : Bool
  evs : List Ev
deriving DecidableEq

/-- train.py lines 185-206: the two independent best checks. The accuracy
check (`eval_acc > best_eval_acc`, strict) runs first and, on improvement,
updates the accuracy record and saves `best_acc_file`; the loss check
(`eval_loss < best_eval_loss`, strict) then runs against the (unchanged by
the accuracy branch) loss record and, on improvement, updates it and saves
`best_loss_file`; if either improved, `best_epochs.txt` is rewritten in
full with the final values of the four record variables. -/
def checkpointStep (epoch1 : Int) (eval_loss eval_acc : ℚ) (st : BestState) : CkOut :=
  let accImproved : Bool := decide (st.best_eval_acc < eval_acc)
  let st1 : BestState :=
    if accImproved then
      ⟨eval_acc, epoch1, st.best_eval_loss, st.best_eval_loss_epoch⟩
    else st
  let evs1 : List Ev := if accImproved then [Ev.saveBestAcc epoch1] else []
  let lossImproved : Bool := decide ((eval_loss : WithTop ℚ) < st1.best_eval_loss)
  let st2 : BestState :=
    if lossImproved then
      ⟨st1.best_eval_acc, st1.best_eval_acc_epoch, (eval_loss : WithTop ℚ), epoch1⟩
    else st1
  let evs2 : List Ev := if lossImproved then [Ev.saveBestLoss epoch1] else []
  let evs3 : List Ev :=
    if accImproved || lossImproved then
      [Ev.writeBestText st2.best_eval_acc_epoch st2.best_eval_acc
        st2.best_eval_loss_epoch st2.best_eval_loss]
    else []
  ⟨st2, accImproved, lossImproved, evs1 ++ evs2 ++ evs3⟩

/-- One iteration of the training loop body, train.py lines 145-224: a
training pass when `epoch > BASELINE_EPOCH` (line 147, via `train_epoch`
with the 1-based number `epoch+1`), then the two evaluation passes (train
loader at line 165, test loader at line 170), the best-record block (lines
185-206), the periodic numbered snapshot when `(epoch+1) % weight_modulus
== 0` (lines 217-220) and the appended CSV row `[epoch+1, lr, train_loss,
train_acc, eval_loss, eval_acc]` (lines 222-224). -/
def runEpoch (a : TrainArgs) (m : Int → EpochObs) (epoch : Int) (st : BestState) :
    BestState × List Ev :=
  let trainEvs : List Ev :=
    if BASELINE_EPOCH < epoch then [Ev.trainPass (epoch + 1)] else []
  let o : EpochObs := m epoch
  let ck : CkOut := checkpointStep (epoch + 1) o.eval_loss o.eval_acc st
  let numEvs : List Ev :=
    if (epoch + 1) % a.weight_modulus = 0 then [Ev.saveNumbered (epoch + 1)] else []
  let rowEv : Ev := Ev.appendRow (epoch + 1) o.lr o.train_loss o.train_acc o.eval_loss o.eval_acc
  (ck.st, trainEvs ++ [Ev.evalPass true, Ev.evalPass false] ++ ck.evs ++ numEvs ++ [rowEv])

/-- The training loop `for epoch in range(start_epoch, args.epochs)`
(train.py line 145), unrolled on the number of remaining iterations. -/
def runFrom (a : TrainArgs) (m : Int → EpochObs) : Nat → Int → BestState → BestState × List Ev
  | 0, _, st => (st, [])
  | Nat.succ k, e, st =>
    let p := runEpoch a m e st
    let q := runFrom a m k (e + 1) p.1
    (q.1, p.2 ++ q.2)

/-- train.py lines 89-100: resolution of the resume parameters.
`continue_weights` without `continue_epoch`, or `continue_epoch` without
`continue_weights`, is a configuration error (`none`); both give
`start_epoch = continue_epoch`; neither gives `start_epoch =
BASELINE_EPOCH`. -/
def resolveStart (a : TrainArgs) : Option Int :=
  match a.continue_weights with
  | some _ =>
    match a.continue_epoch with
    | none => none
    | some e => some e
  | none =>
    match a.continue_epoch with
    | some _ => none
    | none => some BASELINE_EPOCH

/-- train.py lines 104-107: the initial step handed to the learning-rate
schedule when `args.lr is None`: `0` for a fresh run, `continue_epoch *
len(train_loader)` for a resumed one. -/
def initStep (a : TrainArgs) (numBatches : Nat) : Int :=
  match a.continue_epoch with
  | none => 0
  | some e => e * numBatches

/-- Outcome of `main`: the early `return` on a misconfigured resume, or a
completed run. -/
inductive MainResult where
  | configError
  | completed
deriving DecidableEq

/-- src/train.py `main`, as the sequence of its externally visible effects:
output-directory creation and `write_model_params` (lines 45-56), optional
tensorboard writer creation (lines 63-70), the resume check (lines 89-100,
early return on misconfiguration), the results-file header written only
when the file does not yet exist (lines 137-141, modelled by the
`resultsFileExists` flag), then the training loop. -/
def trainMain (a : TrainArgs) (m : Int → EpochObs) (resultsFileExists : Bool) :
    MainResult × List Ev :=
  let pre : List Ev :=
    [Ev.mkdirOutput, Ev.writeParams, Ev.mkdirWeights, Ev.mkdirResults]
      ++ (if a.no_tensorboard then [] else [Ev.tbInit])
  match resolveStart a with
  | none => (MainResult.configError, pre)
  | some s =>
    let hdr : List Ev := if resultsFileExists then [] else [Ev.writeHeader]
    let body := runFrom a m (a.epochs - s).toNat s initBest
    (MainResult.completed, pre ++ hdr ++ body.2)

/-- Whether an event is a training or evaluation pass over the data. -/
def isPass : Ev → Bool
  | Ev.trainPass _ => true
  | Ev.evalPass _ => true
  | _ => false

/-- The subsequence of training/evaluation passes in a trace. -/
def passEvents (evs : List Ev) : List Ev := evs.filter isPass

/-- The per-epoch pass structure of the loop body: the baseline iteration
performs the two evaluation passes only, every later iteration performs one
training pass followed by the evaluation pass over the training set and
then the one over the held-out set. -/
def passPattern (e : Int) : List Ev :=
  if BASELINE_EPOCH < e then
    [Ev.trainPass (e + 1), Ev.evalPass true, Ev.evalPass false]
  else
    [Ev.evalPass true, Ev.evalPass false]

/-- The epoch numbers of the numbered weight snapshots in a trace. -/
def numberedSaves (evs : List Ev) : List Int :=
  evs.filterMap fun ev =>
    match ev with
    | Ev.saveNumbered e => some e
    | _ => none

/-- Whether an event writes training state to the output directory or runs
part of the training loop (results header or row, weight snapshot, best
artifact, best summary, training or evaluation pass). -/
def isTrainingArtifact : Ev → Bool
  | Ev.mkdirOutput => false
  | Ev.writeParams => false
  | Ev.mkdirWeights => false
  | Ev.mkdirResults => false
  | Ev.tbInit => false
  | _ => true

/-- A line of results/results.csv: the fixed header or a data row. -/
inductive CsvLine where
  | header
  | data (epoch1 : Int) (lr tl ta el ea : ℚ)
deriving DecidableEq

/-- The epoch field of a data row (0 for the header). -/
def rowEpoch : CsvLine → Int
  | CsvLine.header => 0
  | CsvLine.data e _ _ _ _ _ => e

/-- Effect of one event on the results file: `writeHeader` models
`open(results_file, "w")` plus the header row (truncating), `appendRow`
models `open(results_file, "a")` plus one data row; all other events leave
the file alone. -/
def applyFileEv (file : List CsvLine) : Ev → List CsvLine
  | Ev.writeHeader => [CsvLine.header]
  | Ev.appendRow e l tl ta el ea => file ++ [CsvLine.data e l tl ta el ea]
  | _ => file

/-- The results file contents after a trace, starting from `init`. -/
def resultsFileAfter (init : List CsvLine) (evs : List Ev) : List CsvLine :=
  evs.foldl applyFileEv init

/-- The data rows appended by a trace, in order. -/
def rowsOf (evs : List Ev) : List CsvLine :=
  evs.filterMap fun ev =>
    match ev with
    | Ev.appendRow e l tl ta el ea => some (CsvLine.data e l tl ta el ea)
    | _ => none

/-- Contents of results/best_epochs.txt, as the four printed values
(best accuracy epoch, best accuracy, best loss epoch, best loss);
`none` means the file has never been written. `writeBestText` replaces the
whole contents (the file is opened with mode `"w"`), every other event
leaves it alone. -/
def bestTextAfter (prior : Option (Int × ℚ × Int × WithTop ℚ)) (evs : List Ev) :
    Option (Int × ℚ × Int × WithTop ℚ) :=
  evs.foldl
    (fun f ev =>
      match ev with
      | Ev.writeBestText ae av le lv => some (ae, av, le, lv)
      | _ => f)
    prior

/-- The list `[s, s+1, ..., s+k-1]`, i.e. Python `range(s, s+k)`. -/
def intRange (s : Int) (k : Nat) : List Int := (List.range k).map fun i => s + Int.ofNat i

/-- The 1-based epoch numbers recorded by a run of `range(s, total)`:
`epoch+1` for each loop index. -/
def executedNumbers (s total : Int) : List Int :=
  (intRange s (total - s).toNat).map fun e => e + 1

/-- Modelled from the spec: `utilities/lr_scheduling.LrStepTracker` is not
under src/. Per spec section 4.2 the schedule is a pure function of
`effective_step = step + S0`, guarded to be at least 1 to avoid dividing by
zero at step 0. -/
def effectiveStep (s0 step : Int) : Int := max (s0 + step) 1

/-- Modelled from the spec: the learning-rate value produced by the
schedule is a fixed function of the guarded effective step; `shape`
abstracts the warmup-then-decay formula `lr = d ^ (-1/2) * min (eff ^
(-1/2), eff * W ^ (-3/2))` for the run's fixed model width `d` and warmup
count `W`, which section 4.2 specifies depends on nothing but the effective
step. -/
def lrAt (shape : Int → ℚ) (s0 step : Int) : ℚ := shape (effectiveStep s0 step)

/-- One record of the maestro JSON index, preprocess_midi.py lines 49-52:
the `midi_filename` and `split` fields read from each piece. -/
structure Piece where
  midi_filename : String
  split : String
deriving DecidableEq

/-- preprocess_midi.py lines 54-65: the output directory chosen for a split
label, `none` on an unrecognized label. -/
def splitDir (s : String) : Option String :=
  if s = ("train" : String) then some ("train" : String)
  else if s = ("validation" : String) then some ("val" : String)
  else if s = ("test" : String) then some ("test" : String)
  else none

/-- preprocess_midi.py line 52: `f_name = mid.split("/")[-1] + ".pickle"`,
the last path component of the midi file name with the pickle extension. -/
def pickleName (p : Piece) : String :=
  (p.midi_filename.splitOn ("/" : String)).getLastD p.midi_filename ++ (".pickle" : String)

/-- preprocess_midi.py lines 49-75: the preprocessing loop over the pieces
of the JSON index. For each piece the split label is examined first; an
unrecognized label prints a data error and returns `False` immediately,
before that piece or any later piece is encoded or written. On a
recognized label the piece is encoded (`encode_midi`, external, modelled as
succeeding) and its pickle is written into the split's directory. Returns
the (directory, file name) pairs written, in order, and the Bool result of
`prep_maestro_midi`. -/
def prepLoop : List Piece → List (String × String) × Bool
  | [] => ([], true)
  | p :: rest =>
    match splitDir p.split with
    | none => ([], false)
    | some d =>
      let r := prepLoop rest
      ((d, pickleName p) :: r.1, r.2)

/-- preprocess_midi.py lines 14-79, `prep_maestro_midi`: after creating the
output directories, the function aborts with `False` when the maestro JSON
index file is missing (lines 36-38, modelled by the `jsonExists` flag), and
otherwise runs the preprocessing loop. -/
def prep_maestro_midi (jsonExists : Bool) (pieces : List Piece) :
    List (String × String) × Bool :=
  if jsonExists then prepLoop pieces else ([], false)

/-- A fresh 4-epoch run with weight-save period 2 and a static learning
rate; tensorboard disabled. -/
def args4 : TrainArgs := ⟨none, none, some 1, 4, 2, true⟩

/-- A constant metrics oracle: every epoch observes train loss 1, train
accuracy 1, eval loss 1, eval accuracy 1, learning rate 1. -/
def m0 : Int → EpochObs := fun _ => ⟨1, 1, 1, 1, 1⟩

/-- A misconfigured resume: `continue_weights` supplied without
`continue_epoch`. -/
def argsBad : TrainArgs := ⟨some 0, none, none, 3, 1, true⟩

/-- A fresh run with a single real epoch (loop indices -1 and 0, recorded
epoch numbers 0 and 1). -/
def args6 : TrainArgs := ⟨none, none, some 1, 1, 1, true⟩

/-- A resumed run: weights plus `continue_epoch = 5`, six total epochs, so
exactly one epoch (loop index 5, recorded number 6) executes. -/
def args10 : TrainArgs := ⟨some 0, some 5, some 1, 6, 100, true⟩

/-- A metrics oracle whose evaluation accuracy is 0 at every epoch. -/
def m10 : Int → EpochObs := fun _ => ⟨1, 0, 1, 0, 1⟩

/-- A resumed-run configuration used to instantiate resumed-run theorems:
weights plus `continue_epoch = 2`, five total epochs, scheduled mode. -/
def args1 : TrainArgs := ⟨some 0, some 2, none, 5, 1, true⟩

/-- A fresh two-epoch configuration used to instantiate fresh-run
theorems. -/
def args6w : TrainArgs := ⟨none, none, some 1, 2, 1, true⟩

theorem intRange_succ (s : Int) (k : Nat) :
    intRange s (k + 1) = s :: intRange (s + 1) k := by
  unfold intRange
  rw [List.range_succ_eq_map, List.map_cons, List.map_map]
  have h : ((fun i : Nat => s + Int.ofNat i) ∘ Nat.succ) = fun i : Nat => (s + 1) + Int.ofNat i := by
    funext i
    simp only [Function.comp, Nat.succ_eq_add_one, Int.ofNat_eq_coe]
    push_cast
    ring
  rw [h]
  simp

theorem passEvents_append (l1 l2 : List Ev) :
    passEvents (l1 ++ l2) = passEvents l1 ++ passEvents l2 :=
  List.filter_append l1 l2

theorem passEvents_runEpoch (a : TrainArgs) (m : Int → EpochObs) (e : Int) (st : BestState) :
    passEvents (runEpoch a m e st).2 = passPattern e := by
  unfold runEpoch checkpointStep passEvents passPattern
  split_ifs <;> simp_all [isPass]

/-- C2: in every run, the baseline iteration (loop index `BASELINE_EPOCH`)
performs evaluation only — no training pass — and every later iteration
performs exactly one training pass followed by exactly two evaluation
passes, in the order: training pass, evaluation over the training set,
evaluation over the held-out set. The pass subsequence of the whole loop
is the concatenation of `passPattern` over the executed loop indices. -/
theorem C2_epoch_pass_structure (a : TrainArgs) (m : Int → EpochObs) :
    ∀ (k : Nat) (e : Int) (st : BestState),
      passEvents (runFrom a m k e st).2 = ((intRange e k).map passPattern).join := by
  intro k
  induction k with
  | zero =>
    intro e st
    simp [runFrom, intRange, passEvents]
  | succ n ih =>
    intro e st
    have hstep :
        (runFrom a m (n + 1) e st).2 =
          (runEpoch a m e st).2 ++ (runFrom a m n (e + 1) (runEpoch a m e st).1).2 := rfl
    rw [hstep, passEvents_append, passEvents_runEpoch, ih, intRange_succ]
    simp

/-- C3: for every observation, the accuracy record updates (and the
best-by-accuracy weights are saved) exactly when the new accuracy strictly
exceeds the current best, the loss record updates (and the best-by-loss
weights are saved) exactly when the new loss is strictly below the current
best, the two checks are independent, and an observation tying the current
best on both metrics updates neither record and saves nothing. -/
theorem C3_observe_strict_independent (st : BestState) (epoch1 : Int) (el ea : ℚ) :
    ((checkpointStep epoch1 el ea st).improved_acc = true ↔ st.best_eval_acc < ea)
    ∧ ((checkpointStep epoch1 el ea st).improved_loss = true
        ↔ (el : WithTop ℚ) < st.best_eval_loss)
    ∧ (Ev.saveBestAcc epoch1 ∈ (checkpointStep epoch1 el ea st).evs ↔ st.best_eval_acc < ea)
    ∧ (Ev.saveBestLoss epoch1 ∈ (checkpointStep epoch1 el ea st).evs
        ↔ (el : WithTop ℚ) < st.best_eval_loss)
    ∧ ((checkpointStep epoch1 el ea st).st.best_eval_acc
        = if st.best_eval_acc < ea then ea else st.best_eval_acc)
    ∧ ((checkpointStep epoch1 el ea st).st.best_eval_acc_epoch
        = if st.best_eval_acc < ea then epoch1 else st.best_eval_acc_epoch)
    ∧ ((checkpointStep epoch1 el ea st).st.best_eval_loss
        = if (el : WithTop ℚ) < st.best_eval_loss then (el : WithTop ℚ) else st.best_eval_loss)
    ∧ ((checkpointStep epoch1 el ea st).st.best_eval_loss_epoch
        = if (el : WithTop ℚ) < st.best_eval_loss then epoch1 else st.best_eval_loss_epoch)
    ∧ (ea = st.best_eval_acc ∧ (el : WithTop ℚ) = st.best_eval_loss →
        (checkpointStep epoch1 el ea st).st = st ∧ (checkpointStep epoch1 el ea st).evs = []) := by
  unfold checkpointStep
  by_cases ha : st.best_eval_acc < ea <;>
    by_cases hl : (el : WithTop ℚ) < st.best_eval_loss <;>
      simp [ha, hl] <;>
        intro h1 h2 <;> simp_all

/-- Witness for C3: a concrete observation tying the current best on both
metrics (accuracy 0 equal to best 0, loss 1 equal to best 1) updates
neither record and emits no save or summary write. -/
theorem C3_observe_strict_independent_witness :
    (checkpointStep 1 1 0 ⟨0, -1, ((1 : ℚ) : WithTop ℚ), -1⟩).st
        = ⟨0, -1, ((1 : ℚ) : WithTop ℚ), -1⟩
    ∧ (checkpointStep 1 1 0 ⟨0, -1, ((1 : ℚ) : WithTop ℚ), -1⟩).evs = [] :=
  (C3_observe_strict_independent ⟨0, -1, ((1 : ℚ) : WithTop ℚ), -1⟩ 1 1 0).2.2.2.2.2.2.2.2
    ⟨rfl, rfl⟩

/-- C8: for every executed epoch, the best-summary text file is replaced in
full with the current best records when at least one of the two metrics
improves in that epoch, and is left exactly as it was (possibly reflecting
a stale epoch number) when neither improves. -/
theorem C8_best_summary_rewrite (a : TrainArgs) (m : Int → EpochObs) (e : Int) (st : BestState)
    (prior : Option (Int × ℚ × Int × WithTop ℚ)) :
    bestTextAfter prior (runEpoch a m e st).2 =
      if st.best_eval_acc < (m e).eval_acc ∨ ((m e).eval_loss : WithTop ℚ) < st.best_eval_loss
      then some ((runEpoch a m e st).1.best_eval_acc_epoch, (runEpoch a m e st).1.best_eval_acc,
        (runEpoch a m e st).1.best_eval_loss_epoch, (runEpoch a m e st).1.best_eval_loss)
      else prior := by
  unfold runEpoch checkpointStep bestTextAfter
  by_cases ha : st.best_eval_acc < (m e).eval_acc <;>
    by_cases hl : ((m e).eval_loss : WithTop ℚ) < st.best_eval_loss <;>
      by_cases hb : BASELINE_EPOCH < e <;>
        by_cases hm : (e + 1) % a.weight_modulus = 0 <;>
          simp [ha, hl, hb, hm]

theorem saveNumbered_mem_runEpoch (a : TrainArgs) (m : Int → EpochObs) (e : Int)
    (st : BestState) :
    Ev.saveNumbered (e + 1) ∈ (runEpoch a m e st).2 ↔ (e + 1) % a.weight_modulus = 0 := by
  unfold runEpoch checkpointStep
  by_cases hm : (e + 1) % a.weight_modulus = 0 <;> split_ifs <;> simp_all

/-- C4, counterexample: for the fresh 4-epoch run with weight-save period 2
and constant metrics, the numbered snapshots are produced at recorded epoch
numbers 0 (the baseline iteration, where `epoch+1 = 0` is divisible by 2),
2 and 4 — not at epochs 2 and 4 only as the claim states. -/
theorem C4_counterexample :
    numberedSaves (trainMain args4 m0 true).2 = [0, 2, 4]
    ∧ numberedSaves (trainMain args4 m0 true).2 ≠ [2, 4] := by
  decide

/-- C4, amended: a numbered weight snapshot is persisted after exactly
those loop iterations whose recorded epoch number `epoch+1` (0 for the
baseline iteration) is divisible by the weight-save period, independent of
the metrics and of the best-record state; in particular, for a fresh
4-epoch run with weight-save period 2, numbered snapshots are produced at
recorded epoch numbers 0, 2 and 4. The hypothesis `0 < weight_modulus`
reflects that Python's `%` requires a nonzero modulus. -/
theorem C4_periodic_snapshots (a : TrainArgs) (m : Int → EpochObs) (e : Int) (st : BestState)
    (hwm : 0 < a.weight_modulus) :
    (Ev.saveNumbered (e + 1) ∈ (runEpoch a m e st).2 ↔ (e + 1) % a.weight_modulus = 0)
    ∧ numberedSaves (trainMain args4 m0 true).2 = [0, 2, 4] :=
  ⟨saveNumbered_mem_runEpoch a m e st, by decide⟩

/-- Witness for C4: at epoch index 0 of the example run (recorded number 1,
period 2), no numbered snapshot is saved. -/
theorem C4_periodic_snapshots_witness :
    (Ev.saveNumbered 1 ∈ (runEpoch args4 m0 0 initBest).2 ↔ (1 : Int) % 2 = 0)
    ∧ numberedSaves (trainMain args4 m0 true).2 = [0, 2, 4] :=
  C4_periodic_snapshots args4 m0 0 initBest (by decide)

/-- C1: for a resumed run supplying both a weight snapshot and a prior
epoch number `E` (with the schedule mode selected, `args.lr is None`, and
`E < args.epochs` so at least one epoch executes), the loop starts at index
`E`, so the first executed epoch carries the 1-based number `E+1`; the
schedule's initial step is `E * numBatches` rather than 0; and the
learning-rate value at the first resumed batch (local step 0 with offset
`E * numBatches`) equals the value an uninterrupted run (offset 0) produces
at global step `E * numBatches`, for every shape of the schedule. -/
theorem C1_resume_schedule_continuity (a : TrainArgs) (w : Nat) (E : Int) (nb : Nat)
    (shape : Int → ℚ)
    (hcw : a.continue_weights = some w) (hce : a.continue_epoch = some E)
    (hlr : a.lr = none) (hE : E < a.epochs) :
    resolveStart a = some E
    ∧ (executedNumbers E a.epochs).head? = some (E + 1)
    ∧ initStep a nb = E * nb
    ∧ lrAt shape (initStep a nb) 0 = lrAt shape 0 (E * nb) := by
  refine ⟨?_, ?_, ?_, ?_⟩
  · simp [resolveStart, hcw, hce]
  · have h1 : (a.epochs - E).toNat ≠ 0 := by omega
    obtain ⟨k, hk⟩ := Nat.exists_eq_succ_of_ne_zero h1
    rw [executedNumbers, hk, intRange_succ]
    simp
  · simp [initStep, hce]
  · simp [lrAt, initStep, hce, effectiveStep]

/-- Witness for C1: resuming from epoch 2 of a 5-epoch scheduled run with 3
batches per epoch starts the loop at index 2 (first executed epoch number
3) with initial step 6, and the learning rate at the first resumed batch
matches the uninterrupted schedule at global step 6. -/
theorem C1_resume_schedule_continuity_witness :
    resolveStart args1 = some 2
    ∧ (executedNumbers 2 args1.epochs).head? = some (2 + 1)
    ∧ initStep args1 3 = 2 * (3 : Nat)
    ∧ lrAt (fun i => (i : ℚ)) (initStep args1 3) 0 = lrAt (fun i => (i : ℚ)) 0 (2 * (3 : Nat)) :=
  C1_resume_schedule_continuity args1 0 2 3 (fun i => (i : ℚ)) rfl rfl rfl (by decide)

/-- C5, counterexample: with `continue_weights` supplied and
`continue_epoch` missing, `main` does report a configuration error and
never starts the loop, but state HAS been written to the output location
before the check: `write_model_params` (train.py line 50) has already
created `model_params.txt` inside the output directory (and the directory
tree itself was created at lines 45-56). -/
theorem C5_counterexample :
    (trainMain argsBad m0 true).1 = MainResult.configError
    ∧ Ev.writeParams ∈ (trainMain argsBad m0 true).2 := by
  decide

/-- C5, amended: for every invocation supplying exactly one of the resume
parameters, `main` reports a configuration error and returns before the
training loop starts, writing no training state (no results header or row,
no weight snapshot, no best artifact, no best summary, and no training or
evaluation pass runs); however, the output directories and the
model-parameters text file have already been created before the check, so
the output location is not entirely untouched. -/
theorem C5_misconfigured_resume (a : TrainArgs) (m : Int → EpochObs) (ex : Bool)
    (h : (a.continue_weights ≠ none ∧ a.continue_epoch = none)
        ∨ (a.continue_weights = none ∧ a.continue_epoch ≠ none)) :
    (trainMain a m ex).1 = MainResult.configError
    ∧ (trainMain a m ex).2.filter isTrainingArtifact = []
    ∧ (trainMain a m ex).2
        = [Ev.mkdirOutput, Ev.writeParams, Ev.mkdirWeights, Ev.mkdirResults]
          ++ (if a.no_tensorboard then [] else [Ev.tbInit]) := by
  have hr : resolveStart a = none := by
    rcases h with ⟨h1, h2⟩ | ⟨h1, h2⟩
    · rcases Option.ne_none_iff_exists.mp h1 with ⟨w, hw⟩
      rw [resolveStart, ← hw, h2]
    · rcases Option.ne_none_iff_exists.mp h2 with ⟨e2, he⟩
      rw [resolveStart, h1, ← he]
  unfold trainMain
  rw [hr]
  by_cases ht : a.no_tensorboard <;> simp [ht, isTrainingArtifact]

/-- Witness for C5: the concrete misconfigured invocation `argsBad`
(weights without an epoch number) errors out with only the directory
creations and the model-params write in its trace. -/
theorem C5_misconfigured_resume_witness :
    (trainMain argsBad m0 true).1 = MainResult.configError
    ∧ (trainMain argsBad m0 true).2.filter isTrainingArtifact = []
    ∧ (trainMain argsBad m0 true).2
        = [Ev.mkdirOutput, Ev.writeParams, Ev.mkdirWeights, Ev.mkdirResults]
          ++ (if argsBad.no_tensorboard then [] else [Ev.tbInit]) :=
  C5_misconfigured_resume argsBad m0 true (Or.inl ⟨by decide, rfl⟩)

theorem trainMain_trace (a : TrainArgs) (m : Int → EpochObs) (ex : Bool) (s : Int)
    (hs : resolveStart a = some s) :
    trainMain a m ex =
      (MainResult.completed,
        ([Ev.mkdirOutput, Ev.writeParams, Ev.mkdirWeights, Ev.mkdirResults]
            ++ (if a.no_tensorboard then [] else [Ev.tbInit]))
          ++ (if ex then [] else [Ev.writeHeader])
          ++ (runFrom a m (a.epochs - s).toNat s initBest).2) := by
  unfold trainMain
  rw [hs]

theorem runFrom_succ (a : TrainArgs) (m : Int → EpochObs) (k : Nat) (e : Int) (st : BestState) :
    runFrom a m (k + 1) e st =
      ((runFrom a m k (e + 1) (runEpoch a m e st).1).1,
        (runEpoch a m e st).2 ++ (runFrom a m k (e + 1) (runEpoch a m e st).1).2) :=
  rfl

theorem first_epoch_mem_trainMain (a : TrainArgs) (m : Int → EpochObs) (ex : Bool) (s : Int)
    (hs : resolveStart a = some s) (hE : s < a.epochs) (ev : Ev)
    (hev : ev ∈ (runEpoch a m s initBest).2) : ev ∈ (trainMain a m ex).2 := by
  have h1 : (a.epochs - s).toNat ≠ 0 := by omega
  obtain ⟨k, hk⟩ := Nat.exists_eq_succ_of_ne_zero h1
  rw [trainMain_trace a m ex s hs, hk, runFrom_succ]
  simp [hev]

theorem mem_saveBestAcc_runEpoch (a : TrainArgs) (m : Int → EpochObs) (e : Int)
    (st : BestState) :
    Ev.saveBestAcc (e + 1) ∈ (runEpoch a m e st).2 ↔ st.best_eval_acc < (m e).eval_acc := by
  unfold runEpoch checkpointStep
  by_cases ha : st.best_eval_acc < (m e).eval_acc <;> split_ifs <;> simp_all

theorem mem_saveBestLoss_runEpoch (a : TrainArgs) (m : Int → EpochObs) (e : Int)
    (st : BestState) :
    Ev.saveBestLoss (e + 1) ∈ (runEpoch a m e st).2
      ↔ ((m e).eval_loss : WithTop ℚ) < st.best_eval_loss := by
  unfold runEpoch checkpointStep
  by_cases ha : st.best_eval_acc < (m e).eval_acc <;>
    by_cases hl : ((m e).eval_loss : WithTop ℚ) < st.best_eval_loss <;>
      simp [ha, hl] <;> split_ifs <;> simp_all

theorem second_epoch_mem_trainMain (a : TrainArgs) (m : Int → EpochObs) (ex : Bool) (s : Int)
    (hs : resolveStart a = some s) (hE : s + 1 < a.epochs) (ev : Ev)
    (hev : ev ∈ (runEpoch a m (s + 1) (runEpoch a m s initBest).1).2) :
    ev ∈ (trainMain a m ex).2 := by
  obtain ⟨k, hk⟩ : ∃ k, (a.epochs - s).toNat = k + 1 + 1 :=
    ⟨(a.epochs - s).toNat - 2, by omega⟩
  rw [trainMain_trace a m ex s hs, hk, runFrom_succ, runFrom_succ]
  simp [hev]

theorem saveEvents_epoch_bound_runEpoch (a : TrainArgs) (m : Int → EpochObs) (e : Int)
    (st : BestState) (n : Int) :
    (Ev.saveBestAcc n ∈ (runEpoch a m e st).2 → n = e + 1)
    ∧ (Ev.saveBestLoss n ∈ (runEpoch a m e st).2 → n = e + 1) := by
  unfold runEpoch checkpointStep
  by_cases ha : st.best_eval_acc < (m e).eval_acc <;>
    by_cases hl : ((m e).eval_loss : WithTop ℚ) < st.best_eval_loss <;>
      simp [ha, hl] <;> split_ifs <;> simp_all

theorem save_mem_runFrom_lb (a : TrainArgs) (m : Int → EpochObs) :
    ∀ (k : Nat) (e : Int) (st : BestState) (n : Int),
      (Ev.saveBestAcc n ∈ (runFrom a m k e st).2
        ∨ Ev.saveBestLoss n ∈ (runFrom a m k e st).2) → e < n := by
  intro k
  induction k with
  | zero =>
    intro e st n h
    rcases h with h | h <;> simp [runFrom] at h
  | succ j ih =>
    intro e st n h
    rw [runFrom_succ] at h
    rcases h with h | h <;> rcases List.mem_append.mp h with h1 | h2
    · have hb := (saveEvents_epoch_bound_runEpoch a m e st n).1 h1
      omega
    · have hb := ih (e + 1) (runEpoch a m e st).1 n (Or.inl h2)
      omega
    · have hb := (saveEvents_epoch_bound_runEpoch a m e st n).2 h1
      omega
    · have hb := ih (e + 1) (runEpoch a m e st).1 n (Or.inr h2)
      omega

theorem checkpointStep_st_fields (epoch1 : Int) (el ea : ℚ) (st : BestState) :
    ((checkpointStep epoch1 el ea st).st.best_eval_acc
        = if st.best_eval_acc < ea then ea else st.best_eval_acc)
    ∧ ((checkpointStep epoch1 el ea st).st.best_eval_loss
        = if (el : WithTop ℚ) < st.best_eval_loss then (el : WithTop ℚ)
          else st.best_eval_loss) := by
  unfold checkpointStep
  by_cases ha : st.best_eval_acc < ea <;>
    by_cases hl : (el : WithTop ℚ) < st.best_eval_loss <;>
      simp [ha, hl]

theorem runEpoch_fst (a : TrainArgs) (m : Int → EpochObs) (e : Int) (st : BestState) :
    (runEpoch a m e st).1
      = (checkpointStep (e + 1) (m e).eval_loss (m e).eval_acc st).st :=
  rfl

/-- C6, counterexample: in the fresh one-epoch run `args6` with constant
metrics, neither best-weight artifact is written on epoch 1: the first
observation happens at the baseline iteration (recorded epoch number 0),
which already takes both records, and epoch 1 merely ties it. Both
artifacts are written at epoch number 0 instead. -/
theorem C6_counterexample :
    Ev.saveBestAcc 1 ∉ (trainMain args6 m0 true).2
    ∧ Ev.saveBestLoss 1 ∉ (trainMain args6 m0 true).2
    ∧ Ev.saveBestAcc 0 ∈ (trainMain args6 m0 true).2
    ∧ Ev.saveBestLoss 0 ∈ (trainMain args6 m0 true).2 := by
  decide

/-- C6, amended: for every fresh (non-resumed) run, the first observation
occurs at the baseline iteration, recorded as epoch number 0, and counts
against the initial sentinels (best accuracy 0, best loss +infinity): the
best-by-loss artifact is always written there (any finite loss beats
+infinity, unconditionally on the accuracy), and the best-by-accuracy
artifact is written there exactly when the baseline accuracy is strictly
positive; after the baseline the loss record holds the baseline loss (and
the accuracy record the baseline accuracy when positive), and epoch 1 — the
run's second iteration, recorded number 1 — writes each best artifact
exactly when its metric strictly improves on those baseline-updated
records: no save event for epoch 1 appears anywhere in the run's trace
otherwise. -/
theorem C6_fresh_first_observation (a : TrainArgs) (m : Int → EpochObs) (ex : Bool)
    (hcw : a.continue_weights = none) (hce : a.continue_epoch = none)
    (hep : BASELINE_EPOCH < a.epochs) :
    Ev.saveBestLoss 0 ∈ (trainMain a m ex).2
    ∧ (Ev.saveBestAcc 0 ∈ (runEpoch a m BASELINE_EPOCH initBest).2
        ↔ 0 < (m BASELINE_EPOCH).eval_acc)
    ∧ (0 < (m BASELINE_EPOCH).eval_acc → Ev.saveBestAcc 0 ∈ (trainMain a m ex).2)
    ∧ (runEpoch a m BASELINE_EPOCH initBest).1.best_eval_loss
        = ((m BASELINE_EPOCH).eval_loss : WithTop ℚ)
    ∧ (0 < (m BASELINE_EPOCH).eval_acc →
        (runEpoch a m BASELINE_EPOCH initBest).1.best_eval_acc
          = (m BASELINE_EPOCH).eval_acc)
    ∧ (0 < a.epochs →
        ((m 0).eval_acc ≤ (runEpoch a m BASELINE_EPOCH initBest).1.best_eval_acc →
            Ev.saveBestAcc 1 ∉ (trainMain a m ex).2)
          ∧ ((runEpoch a m BASELINE_EPOCH initBest).1.best_eval_loss
                ≤ ((m 0).eval_loss : WithTop ℚ) →
              Ev.saveBestLoss 1 ∉ (trainMain a m ex).2)
          ∧ ((runEpoch a m BASELINE_EPOCH initBest).1.best_eval_acc < (m 0).eval_acc →
              Ev.saveBestAcc 1 ∈ (trainMain a m ex).2)
          ∧ (((m 0).eval_loss : WithTop ℚ)
                < (runEpoch a m BASELINE_EPOCH initBest).1.best_eval_loss →
              Ev.saveBestLoss 1 ∈ (trainMain a m ex).2)) := by
  have hs : resolveStart a = some BASELINE_EPOCH := by
    rw [resolveStart, hcw, hce]
  have h01 : (BASELINE_EPOCH + 1 : Int) = 0 := by norm_num [BASELINE_EPOCH]
  have h012 : ((0 : Int) + 1) = 1 := by norm_num
  have hmemAcc := mem_saveBestAcc_runEpoch a m 0 (runEpoch a m BASELINE_EPOCH initBest).1
  rw [h012] at hmemAcc
  have hmemLoss := mem_saveBestLoss_runEpoch a m 0 (runEpoch a m BASELINE_EPOCH initBest).1
  rw [h012] at hmemLoss
  refine ⟨?_, ?_, ?_, ?_, ?_, ?_⟩
  · refine first_epoch_mem_trainMain a m ex BASELINE_EPOCH hs hep _ ?_
    rw [← h01]
    exact (mem_saveBestLoss_runEpoch a m BASELINE_EPOCH initBest).mpr (by simp [initBest])
  · have h2 := mem_saveBestAcc_runEpoch a m BASELINE_EPOCH initBest
    rw [h01] at h2
    simpa [initBest] using h2
  · intro hacc
    refine first_epoch_mem_trainMain a m ex BASELINE_EPOCH hs hep _ ?_
    rw [← h01]
    exact (mem_saveBestAcc_runEpoch a m BASELINE_EPOCH initBest).mpr
      (by simpa [initBest] using hacc)
  · rw [runEpoch_fst]
    rw [(checkpointStep_st_fields (BASELINE_EPOCH + 1) (m BASELINE_EPOCH).eval_loss
      (m BASELINE_EPOCH).eval_acc initBest).2]
    simp [initBest]
  · intro hacc
    rw [runEpoch_fst]
    rw [(checkpointStep_st_fields (BASELINE_EPOCH + 1) (m BASELINE_EPOCH).eval_loss
      (m BASELINE_EPOCH).eval_acc initBest).1]
    simp [initBest, hacc]
  · intro h0
    obtain ⟨k, hk⟩ : ∃ k, (a.epochs - BASELINE_EPOCH).toNat = k + 1 + 1 :=
      ⟨(a.epochs - BASELINE_EPOCH).toNat - 2, by simp only [BASELINE_EPOCH]; omega⟩
    have htr : (trainMain a m ex).2 =
        (([Ev.mkdirOutput, Ev.writeParams, Ev.mkdirWeights, Ev.mkdirResults]
            ++ (if a.no_tensorboard then [] else [Ev.tbInit]))
          ++ (if ex then [] else [Ev.writeHeader]))
          ++ ((runEpoch a m BASELINE_EPOCH initBest).2
            ++ ((runEpoch a m 0 (runEpoch a m BASELINE_EPOCH initBest).1).2
              ++ (runFrom a m k 1
                  (runEpoch a m 0 (runEpoch a m BASELINE_EPOCH initBest).1).1).2)) := by
      rw [trainMain_trace a m ex BASELINE_EPOCH hs, hk, runFrom_succ, h01, runFrom_succ, h012]
    refine ⟨?_, ?_, ?_, ?_⟩
    · intro hle hmem
      rw [htr] at hmem
      rcases List.mem_append.mp hmem with h | h
      · rcases List.mem_append.mp h with h | h
        · rcases List.mem_append.mp h with h | h
          · simp at h
          · split at h <;> simp at h
        · split at h <;> simp at h
      · rcases List.mem_append.mp h with h | h
        · have hb := (saveEvents_epoch_bound_runEpoch a m BASELINE_EPOCH initBest 1).1 h
          rw [h01] at hb
          norm_num at hb
        · rcases List.mem_append.mp h with h | h
          · exact absurd (hmemAcc.mp h) (not_lt.mpr hle)
          · have hb := save_mem_runFrom_lb a m k 1 _ 1 (Or.inl h)
            omega
    · intro hle hmem
      rw [htr] at hmem
      rcases List.mem_append.mp hmem with h | h
      · rcases List.mem_append.mp h with h | h
        · rcases List.mem_append.mp h with h | h
          · simp at h
          · split at h <;> simp at h
        · split at h <;> simp at h
      · rcases List.mem_append.mp h with h | h
        · have hb := (saveEvents_epoch_bound_runEpoch a m BASELINE_EPOCH initBest 1).2 h
          rw [h01] at hb
          norm_num at hb
        · rcases List.mem_append.mp h with h | h
          · exact absurd (hmemLoss.mp h) (not_lt.mpr hle)
          · have hb := save_mem_runFrom_lb a m k 1 _ 1 (Or.inr h)
            omega
    · intro hlt
      refine second_epoch_mem_trainMain a m ex BASELINE_EPOCH hs ?_ _ ?_
      · rw [h01]
        exact h0
      · rw [h01]
        exact hmemAcc.mpr hlt
    · intro hlt
      refine second_epoch_mem_trainMain a m ex BASELINE_EPOCH hs ?_ _ ?_
      · rw [h01]
        exact h0
      · rw [h01]
        exact hmemLoss.mpr hlt

/-- Witness for C6: the fresh two-epoch run `args6w` with constant positive
metrics writes the best-by-loss artifact unconditionally and the
best-by-accuracy artifact at the baseline observation (epoch number 0), the
baseline metrics become the records, and the epoch-1 clauses are exercised
at the plateau (both ties, so the only-if branches apply). -/
theorem C6_fresh_first_observation_witness :
    Ev.saveBestLoss 0 ∈ (trainMain args6w m0 true).2
    ∧ (Ev.saveBestAcc 0 ∈ (runEpoch args6w m0 BASELINE_EPOCH initBest).2
        ↔ 0 < (m0 BASELINE_EPOCH).eval_acc)
    ∧ (0 < (m0 BASELINE_EPOCH).eval_acc → Ev.saveBestAcc 0 ∈ (trainMain args6w m0 true).2)
    ∧ (runEpoch args6w m0 BASELINE_EPOCH initBest).1.best_eval_loss
        = ((m0 BASELINE_EPOCH).eval_loss : WithTop ℚ)
    ∧ (0 < (m0 BASELINE_EPOCH).eval_acc →
        (runEpoch args6w m0 BASELINE_EPOCH initBest).1.best_eval_acc
          = (m0 BASELINE_EPOCH).eval_acc)
    ∧ (0 < args6w.epochs →
        ((m0 0).eval_acc ≤ (runEpoch args6w m0 BASELINE_EPOCH initBest).1.best_eval_acc →
            Ev.saveBestAcc 1 ∉ (trainMain args6w m0 true).2)
          ∧ ((runEpoch args6w m0 BASELINE_EPOCH initBest).1.best_eval_loss
                ≤ ((m0 0).eval_loss : WithTop ℚ) →
              Ev.saveBestLoss 1 ∉ (trainMain args6w m0 true).2)
          ∧ ((runEpoch args6w m0 BASELINE_EPOCH initBest).1.best_eval_acc
                < (m0 0).eval_acc →
              Ev.saveBestAcc 1 ∈ (trainMain args6w m0 true).2)
          ∧ (((m0 0).eval_loss : WithTop ℚ)
                < (runEpoch args6w m0 BASELINE_EPOCH initBest).1.best_eval_loss →
              Ev.saveBestLoss 1 ∈ (trainMain args6w m0 true).2)) :=
  C6_fresh_first_observation args6w m0 true rfl rfl (by decide)

/-- C10, counterexample: in the resumed run `args10` (resumed at epoch 5,
one executed epoch with recorded number 6) whose first evaluated epoch has
accuracy 0, the best-by-accuracy artifact is NOT overwritten at that epoch
(0 does not strictly exceed the re-initialized sentinel 0), while the
best-by-loss artifact is; so the claim that both artifacts are always
overwritten is false. -/
theorem C10_counterexample :
    Ev.saveBestAcc 6 ∉ (trainMain args10 m10 true).2
    ∧ Ev.saveBestLoss 6 ∈ (trainMain args10 m10 true).2 := by
  decide

/-- C10, amended: for every resumed run the best records start from the
sentinels 0 and +infinity again (the loop always begins from `initBest`;
nothing is restored from the prior run), so independently of any bests
achieved before the interruption the first evaluated epoch (recorded
number E+1) always overwrites the best-by-loss artifact, and overwrites the
best-by-accuracy artifact exactly when its evaluation accuracy is strictly
positive. -/
theorem C10_resume_reinitialized_bests (a : TrainArgs) (m : Int → EpochObs) (ex : Bool)
    (w : Nat) (E : Int)
    (hcw : a.continue_weights = some w) (hce : a.continue_epoch = some E)
    (hE : E < a.epochs) :
    Ev.saveBestLoss (E + 1) ∈ (trainMain a m ex).2
    ∧ (0 < (m E).eval_acc → Ev.saveBestAcc (E + 1) ∈ (trainMain a m ex).2)
    ∧ (Ev.saveBestAcc (E + 1) ∈ (runEpoch a m E initBest).2 ↔ 0 < (m E).eval_acc) := by
  have hs : resolveStart a = some E := by
    rw [resolveStart, hcw, hce]
  refine ⟨?_, ?_, ?_⟩
  · exact first_epoch_mem_trainMain a m ex E hs hE _
      ((mem_saveBestLoss_runEpoch a m E initBest).mpr (by simp [initBest]))
  · intro hacc
    exact first_epoch_mem_trainMain a m ex E hs hE _
      ((mem_saveBestAcc_runEpoch a m E initBest).mpr (by simpa [initBest] using hacc))
  · simpa [initBest] using mem_saveBestAcc_runEpoch a m E initBest

/-- Witness for C10: resuming `args1` from epoch 2 with positive constant
metrics writes the best-by-loss artifact at epoch number 3, and the
positive accuracy also forces the best-by-accuracy artifact there. -/
theorem C10_resume_reinitialized_bests_witness :
    Ev.saveBestLoss (2 + 1) ∈ (trainMain args1 m0 true).2
    ∧ (0 < (m0 2).eval_acc → Ev.saveBestAcc (2 + 1) ∈ (trainMain args1 m0 true).2)
    ∧ (Ev.saveBestAcc (2 + 1) ∈ (runEpoch args1 m0 2 initBest).2 ↔ 0 < (m0 2).eval_acc) :=
  C10_resume_reinitialized_bests args1 m0 true 0 2 rfl rfl (by decide)

theorem rowsOf_append (l1 l2 : List Ev) : rowsOf (l1 ++ l2) = rowsOf l1 ++ rowsOf l2 :=
  List.filterMap_append l1 l2 _

theorem rowsOf_runEpoch (a : TrainArgs) (m : Int → EpochObs) (e : Int) (st : BestState) :
    rowsOf (runEpoch a m e st).2 =
      [CsvLine.data (e + 1) (m e).lr (m e).train_loss (m e).train_acc
        (m e).eval_loss (m e).eval_acc] := by
  unfold runEpoch checkpointStep rowsOf
  simp only [List.filterMap_append]
  split_ifs <;> simp

theorem rowsOf_runFrom (a : TrainArgs) (m : Int → EpochObs) :
    ∀ (k : Nat) (e : Int) (st : BestState),
      rowsOf (runFrom a m k e st).2 =
        (intRange e k).map fun i =>
          CsvLine.data (i + 1) (m i).lr (m i).train_loss (m i).train_acc
            (m i).eval_loss (m i).eval_acc := by
  intro k
  induction k with
  | zero =>
    intro e st
    simp [runFrom, intRange, rowsOf]
  | succ n ih =>
    intro e st
    rw [runFrom_succ]
    rw [rowsOf_append, rowsOf_runEpoch, ih, intRange_succ]
    simp

theorem writeHeader_not_mem_runEpoch (a : TrainArgs) (m : Int → EpochObs) (e : Int)
    (st : BestState) : Ev.writeHeader ∉ (runEpoch a m e st).2 := by
  unfold runEpoch checkpointStep
  split_ifs <;> simp_all

theorem writeHeader_not_mem_runFrom (a : TrainArgs) (m : Int → EpochObs) :
    ∀ (k : Nat) (e : Int) (st : BestState), Ev.writeHeader ∉ (runFrom a m k e st).2 := by
  intro k
  induction k with
  | zero =>
    intro e st
    simp [runFrom]
  | succ n ih =>
    intro e st
    rw [runFrom_succ]
    simp only [List.mem_append, not_or]
    exact ⟨writeHeader_not_mem_runEpoch a m e st, ih (e + 1) (runEpoch a m e st).1⟩

theorem resultsFileAfter_no_header (evs : List Ev) :
    ∀ (f : List CsvLine), Ev.writeHeader ∉ evs →
      resultsFileAfter f evs = f ++ rowsOf evs := by
  induction evs with
  | nil =>
    intro f _
    simp [resultsFileAfter, rowsOf]
  | cons ev tl ih =>
    intro f h
    have h1 : ev ≠ Ev.writeHeader := fun hc => h (by simp [hc])
    have h2 : Ev.writeHeader ∉ tl := fun hc => h (by simp [hc])
    have hstep : resultsFileAfter f (ev :: tl) = resultsFileAfter (applyFileEv f ev) tl := rfl
    rw [hstep, ih _ h2]
    cases ev <;> simp_all [applyFileEv, rowsOf]

theorem executedNumbers_pairwise (s total : Int) :
    List.Pairwise (· < ·) (executedNumbers s total) := by
  unfold executedNumbers intRange
  have h1 : List.Pairwise (· < ·) (List.range (total - s).toNat) :=
    List.pairwise_lt_range _
  have h2 : List.Pairwise (· < ·)
      ((List.range (total - s).toNat).map fun i => s + Int.ofNat i) :=
    h1.map _ (fun a b hab => by simp only [Int.ofNat_eq_coe]; omega)
  exact h2.map _ (fun a b hab => by omega)

theorem resultsFileAfter_append (f : List CsvLine) (l1 l2 : List Ev) :
    resultsFileAfter f (l1 ++ l2) = resultsFileAfter (resultsFileAfter f l1) l2 :=
  List.foldl_append applyFileEv f l1 l2

/-- C7: for every completed run (well-formed resume parameters resolving to
start index `s`), the results log receives exactly one data row per
executed epoch — the row `[epoch+1, lr, train_loss, train_acc, eval_loss,
eval_acc]` for each loop index — in strictly increasing epoch order; the
final file contents equal the prior contents (or the header alone, written
once, when the file did not exist) followed by the new rows, so previously
written lines, header included, are never rewritten. -/
theorem C7_results_log (a : TrainArgs) (m : Int → EpochObs) (ex : Bool)
    (init : List CsvLine) (s : Int) (hs : resolveStart a = some s) :
    rowsOf (trainMain a m ex).2
        = (intRange s (a.epochs - s).toNat).map (fun i =>
            CsvLine.data (i + 1) (m i).lr (m i).train_loss (m i).train_acc
              (m i).eval_loss (m i).eval_acc)
    ∧ (rowsOf (trainMain a m ex).2).map rowEpoch = executedNumbers s a.epochs
    ∧ List.Pairwise (· < ·) (executedNumbers s a.epochs)
    ∧ resultsFileAfter (if ex then init else []) (trainMain a m ex).2
        = (if ex then init else [CsvLine.header]) ++ rowsOf (trainMain a m ex).2 := by
  have hnomem := writeHeader_not_mem_runFrom a m (a.epochs - s).toNat s initBest
  have hrows : rowsOf (trainMain a m ex).2
      = (intRange s (a.epochs - s).toNat).map (fun i =>
          CsvLine.data (i + 1) (m i).lr (m i).train_loss (m i).train_acc
            (m i).eval_loss (m i).eval_acc) := by
    rw [trainMain_trace a m ex s hs]
    simp only [rowsOf_append, rowsOf_runFrom]
    by_cases ht : a.no_tensorboard <;> by_cases hex : ex <;>
      simp [ht, hex, rowsOf]
  refine ⟨hrows, ?_, executedNumbers_pairwise s a.epochs, ?_⟩
  · rw [hrows, List.map_map]
    rfl
  · rw [hrows]
    rw [trainMain_trace a m ex s hs]
    rw [resultsFileAfter_append, resultsFileAfter_append]
    have hpre : ∀ f : List CsvLine,
        resultsFileAfter f ([Ev.mkdirOutput, Ev.writeParams, Ev.mkdirWeights, Ev.mkdirResults]
          ++ (if a.no_tensorboard then [] else [Ev.tbInit])) = f := by
      intro f
      by_cases ht : a.no_tensorboard <;> simp [ht, resultsFileAfter, applyFileEv]
    rw [hpre]
    by_cases hex : ex
    · simp only [hex, if_true]
      rw [show resultsFileAfter init ([] : List Ev) = init from rfl]
      rw [resultsFileAfter_no_header _ init hnomem, rowsOf_runFrom]
    · simp only [hex, Bool.false_eq_true, if_false]
      rw [show resultsFileAfter [] [Ev.writeHeader] = [CsvLine.header] from rfl]
      rw [resultsFileAfter_no_header _ [CsvLine.header] hnomem, rowsOf_runFrom]

/-- Witness for C7: the fresh 4-epoch example run appends rows for epoch
numbers 0 through 4 in order to an existing file containing the header. -/
theorem C7_results_log_witness :
    rowsOf (trainMain args4 m0 true).2
        = (intRange (-1) (args4.epochs - (-1)).toNat).map (fun i =>
            CsvLine.data (i + 1) (m0 i).lr (m0 i).train_loss (m0 i).train_acc
              (m0 i).eval_loss (m0 i).eval_acc)
    ∧ (rowsOf (trainMain args4 m0 true).2).map rowEpoch = executedNumbers (-1) args4.epochs
    ∧ List.Pairwise (· < ·) (executedNumbers (-1) args4.epochs)
    ∧ resultsFileAfter (if true then [CsvLine.header] else []) (trainMain args4 m0 true).2
        = (if true then [CsvLine.header] else [CsvLine.header])
          ++ rowsOf (trainMain args4 m0 true).2 :=
  C7_results_log args4 m0 true [CsvLine.header] (-1) rfl

/-- C9: for every piece list of the form `pre ++ bad :: rest` where every
piece of `pre` has a recognized split label and `bad` has an unrecognized
one, preprocessing returns failure (`False`) immediately at `bad`: exactly
the pieces of `pre` are encoded and written, and neither `bad` nor any
piece after it is processed. -/
theorem C9_unknown_split_aborts (pre : List Piece) (bad : Piece) (rest : List Piece)
    (hpre : ∀ p ∈ pre, (splitDir p.split).isSome)
    (hbad : splitDir bad.split = none) :
    prepLoop (pre ++ bad :: rest)
      = (pre.filterMap (fun p => (splitDir p.split).map fun d => (d, pickleName p)), false) := by
  induction pre with
  | nil => simp [prepLoop, hbad]
  | cons p ps ih =>
    have hp : (splitDir p.split).isSome := hpre p (by simp)
    obtain ⟨d, hd⟩ := Option.isSome_iff_exists.mp hp
    have ih2 := ih fun q hq => hpre q (by simp [hq])
    simp [prepLoop, hd, ih2, List.filterMap_cons]

/-- Witness for C9: a three-piece index whose middle piece carries the
unknown split label writes only the first piece's pickle and fails. -/
theorem C9_unknown_split_aborts_witness :
    prepLoop ([⟨"a.mid", "train"⟩] ++ ⟨"b.mid", "dev"⟩ :: [⟨"c.mid", "test"⟩])
      = (([⟨"a.mid", "train"⟩] : List Piece).filterMap
          (fun p => (splitDir p.split).map fun d => (d, pickleName p)), false) :=
  C9_unknown_split_aborts [⟨"a.mid", "train"⟩] ⟨"b.mid", "dev"⟩ [⟨"c.mid", "test"⟩]
    (by decide) (by decide)
